import Mathlib

/-!
Verification of the CutStack layout engine (`src/imposition.py`, `src/app.py`).

The Python source is shallowly embedded below: pure functions become Lean
functions over `ℕ`, `ℤ` and `ℚ` (Python floats are modelled by exact
rationals), lists built by loops become `List.range`/`flatMap` expressions,
and the Flask request handler becomes a total function from an abstract
request to an abstract outcome.  Theorems about the claims follow the
definitions.
-/

namespace CutStack

/-- Embeds Python `math.ceil(a / b)` for nonnegative integers `a` and positive
`b` (the exact real quotient's ceiling; see `ceil_div_eq_ceil` below). -/
def ceil_div (a b : ℕ) : ℕ := (a + b - 1) / b

/-- Embeds Python `int(math.ceil(math.sqrt(n)))` for a nonnegative integer:
the least integer whose square is at least `n`. -/
def ceil_sqrt (n : ℕ) : ℕ :=
  if Nat.sqrt n * Nat.sqrt n = n then Nat.sqrt n else Nat.sqrt n + 1

/-- `target_ratio = 1.414` from `Imposer.calculate_grid`. -/
def target_ratio : ℚ := 1.414

/-- `limit = int(math.ceil(math.sqrt(n))) + 2` from `Imposer.calculate_grid`. -/
def grid_limit (n : ℕ) : ℕ := ceil_sqrt n + 2

/-- The candidate list built by the `for c in range(1, limit + 1)` loop of
`Imposer.calculate_grid`: triples `(c, r, waste)` with `r = ceil(n / c)` and
`waste = r * c - n`. -/
def candidates (n : ℕ) : List (ℕ × ℕ × ℕ) :=
  (List.range' 1 (grid_limit n)).map
    (fun c => (c, ceil_div n c, ceil_div n c * c - n))

/-- The sort key `x[2] + abs((x[1]/x[0]) - target_ratio)` of
`Imposer.calculate_grid`. -/
def cand_cost (x : ℕ × ℕ × ℕ) : ℚ :=
  (x.2.2 : ℚ) + |((x.2.1 : ℚ) / (x.1 : ℚ)) - target_ratio|

/-- First element attaining the minimal key: the head of a stable sort by
`f`, as produced by Python's `list.sort(key=f)` followed by `[0]`. -/
def first_min {α : Type} (f : α → ℚ) (x : α) (l : List α) : α :=
  l.foldl (fun b y => if f y < f b then y else b) x

/-- The winning candidate `candidates[0]` after the stable sort in
`Imposer.calculate_grid`. -/
def chosen (n : ℕ) : ℕ × ℕ × ℕ :=
  match candidates n with
  | [] => (1, n, 0)
  | x :: xs => first_min cand_cost x xs

/-- `Imposer.calculate_grid(n)`: returns `(best[0], best[1]) = (cols, rows)`. -/
def calculate_grid (n : ℕ) : ℕ × ℕ := ((chosen n).1, (chosen n).2.1)

/- ### basic facts about `ceil_div` -/

lemma ceil_div_spec (a b : ℕ) (hb : 0 < b) :
    a ≤ b * ceil_div a b ∧ b * ceil_div a b ≤ a + b - 1 := by
  unfold ceil_div
  have h1 := Nat.div_add_mod (a + b - 1) b
  have h2 := Nat.mod_lt (a + b - 1) hb
  omega

lemma ceil_div_one (a : ℕ) : ceil_div a 1 = a := by
  unfold ceil_div; omega

lemma ceil_div_pos (a b : ℕ) (ha : 1 ≤ a) (hb : 1 ≤ b) : 1 ≤ ceil_div a b := by
  rw [ceil_div, Nat.le_div_iff_mul_le hb]; omega

lemma ceil_div_eq_ceil (a b : ℕ) (hb : 0 < b) :
    ceil_div a b = ⌈(a : ℚ) / (b : ℚ)⌉₊ := by
  have hbq : (0 : ℚ) < (b : ℚ) := by exact_mod_cast hb
  rcases Nat.eq_zero_or_pos a with ha | ha
  · subst ha
    have : ceil_div 0 b = 0 := by
      rw [ceil_div]; exact Nat.div_eq_of_lt (by omega)
    rw [this]
    simp
  · have hq : 1 ≤ ceil_div a b := ceil_div_pos a b ha hb
    obtain ⟨hle, hle'⟩ := ceil_div_spec a b hb
    symm
    rw [Nat.ceil_eq_iff (by omega)]
    constructor
    · rw [lt_div_iff₀ hbq]
      have hn : (ceil_div a b - 1) * b + 1 ≤ a := by
        have hmul : (ceil_div a b - 1) * b = ceil_div a b * b - b := by
          rw [Nat.sub_mul]; omega
        rw [hmul, Nat.mul_comm (ceil_div a b) b]
        omega
      exact_mod_cast Nat.lt_of_lt_of_le (Nat.lt_succ_self _) hn
    · rw [div_le_iff₀ hbq]
      have hn : a ≤ ceil_div a b * b := by rw [Nat.mul_comm]; exact hle
      exact_mod_cast hn

/- ### facts about `first_min` -/

lemma first_min_cons {α : Type} (f : α → ℚ) (x y : α) (l : List α) :
    first_min f x (y :: l) = first_min f (if f y < f x then y else x) l := rfl

lemma first_min_nil {α : Type} (f : α → ℚ) (x : α) : first_min f x [] = x := rfl

lemma first_min_mem {α : Type} (f : α → ℚ) (x : α) (l : List α) :
    first_min f x l = x ∨ first_min f x l ∈ l := by
  induction l generalizing x with
  | nil => exact Or.inl rfl
  | cons y l ih =>
    rw [first_min_cons]
    rcases ih (if f y < f x then y else x) with h | h
    · rw [h]
      by_cases hc : f y < f x
      · rw [if_pos hc]; exact Or.inr (List.mem_cons_self y l)
      · rw [if_neg hc]; exact Or.inl rfl
    · exact Or.inr (List.mem_cons_of_mem y h)

lemma first_min_le {α : Type} (f : α → ℚ) (x : α) (l : List α) :
    ∀ a, (a = x ∨ a ∈ l) → f (first_min f x l) ≤ f a := by
  induction l generalizing x with
  | nil =>
    rintro a (rfl | h)
    · exact le_refl _
    · cases h
  | cons y l ih =>
    have hz : f (if f y < f x then y else x) ≤ f x ∧
        f (if f y < f x then y else x) ≤ f y := by
      by_cases hc : f y < f x
      · rw [if_pos hc]; exact ⟨le_of_lt hc, le_refl _⟩
      · rw [if_neg hc]; exact ⟨le_refl _, le_of_not_lt hc⟩
    rintro a (rfl | ha)
    · rw [first_min_cons]
      exact le_trans (ih _ _ (Or.inl rfl)) hz.1
    · rw [first_min_cons]
      rcases List.mem_cons.mp ha with rfl | ha'
      · exact le_trans (ih _ _ (Or.inl rfl)) hz.2
      · exact ih _ _ (Or.inr ha')

/- ### the chosen candidate is a minimal-cost member of the list -/

lemma candidates_ne_nil (n : ℕ) : candidates n ≠ [] := by
  unfold candidates grid_limit
  intro h
  have := List.map_eq_nil_iff.mp h
  have hlen := congrArg List.length this
  simp [List.length_range'] at hlen

lemma chosen_spec (n : ℕ) :
    chosen n ∈ candidates n ∧
      ∀ y ∈ candidates n, cand_cost (chosen n) ≤ cand_cost y := by
  unfold chosen
  cases hc : candidates n with
  | nil => exact absurd hc (candidates_ne_nil n)
  | cons x xs =>
    refine ⟨?_, ?_⟩
    · show first_min cand_cost x xs ∈ x :: xs
      rcases first_min_mem cand_cost x xs with h | h
      · rw [h]; exact List.mem_cons_self x xs
      · exact List.mem_cons_of_mem x h
    · show ∀ y ∈ x :: xs, cand_cost (first_min cand_cost x xs) ≤ cand_cost y
      intro y hy
      rcases List.mem_cons.mp hy with h | hy'
      · rw [h]; exact first_min_le cand_cost x xs x (Or.inl rfl)
      · exact first_min_le cand_cost x xs y (Or.inr hy')

lemma mem_candidates (n : ℕ) (x : ℕ × ℕ × ℕ) (hx : x ∈ candidates n) :
    ∃ c, 1 ≤ c ∧ x = (c, ceil_div n c, ceil_div n c * c - n) := by
  unfold candidates at hx
  obtain ⟨c, hc, rfl⟩ := List.mem_map.mp hx
  rw [List.mem_range'] at hc
  obtain ⟨i, _, rfl⟩ := hc
  exact ⟨1 + 1 * i, by omega, rfl⟩

lemma trivial_candidate_mem (n : ℕ) : (1, n, 0) ∈ candidates n := by
  unfold candidates
  have h1 : (1 : ℕ) ∈ List.range' 1 (grid_limit n) := by
    rw [List.mem_range']
    exact ⟨0, by unfold grid_limit; omega, by omega⟩
  have := List.mem_map_of_mem
    (fun c => (c, ceil_div n c, ceil_div n c * c - n)) h1
  simpa [ceil_div_one] using this

/- ### concrete evaluations of the grid computation -/

lemma abs_val_nonneg {x c : ℚ} (hx : x = c) (hc : 0 ≤ c) : |x| = c := by
  rw [hx, abs_of_nonneg hc]

lemma abs_val_nonpos {x c : ℚ} (hx : x = -c) (hc : 0 ≤ c) : |x| = c := by
  rw [hx, abs_neg, abs_of_nonneg hc]

lemma sqrt_five : Nat.sqrt 5 = 2 := by
  have h1 : 2 ≤ Nat.sqrt 5 := Nat.le_sqrt.mpr (by norm_num)
  have h2 : Nat.sqrt 5 < 3 := Nat.sqrt_lt.mpr (by norm_num)
  omega

lemma sqrt_zero' : Nat.sqrt 0 = 0 := by
  have h2 : Nat.sqrt 0 < 1 := Nat.sqrt_lt.mpr (by norm_num)
  omega

lemma cost_150 : cand_cost (1, 5, 0) = 3586 / 1000 := by
  show ((0 : ℕ) : ℚ) + |((5 : ℕ) : ℚ) / ((1 : ℕ) : ℚ) - target_ratio| = 3586 / 1000
  rw [abs_val_nonneg (show ((5 : ℕ) : ℚ) / ((1 : ℕ) : ℚ) - target_ratio = 3586 / 1000
    by norm_num [target_ratio]) (by norm_num)]
  norm_num

lemma cost_231 : cand_cost (2, 3, 1) = 1086 / 1000 := by
  show ((1 : ℕ) : ℚ) + |((3 : ℕ) : ℚ) / ((2 : ℕ) : ℚ) - target_ratio| = 1086 / 1000
  rw [abs_val_nonneg (show ((3 : ℕ) : ℚ) / ((2 : ℕ) : ℚ) - target_ratio = 86 / 1000
    by norm_num [target_ratio]) (by norm_num)]
  norm_num

lemma cost_321 : cand_cost (3, 2, 1) = 2621 / 1500 := by
  show ((1 : ℕ) : ℚ) + |((2 : ℕ) : ℚ) / ((3 : ℕ) : ℚ) - target_ratio| = 2621 / 1500
  rw [abs_val_nonpos (show ((2 : ℕ) : ℚ) / ((3 : ℕ) : ℚ) - target_ratio = -(1121 / 1500)
    by norm_num [target_ratio]) (by norm_num)]
  norm_num

lemma cost_423 : cand_cost (4, 2, 3) = 3914 / 1000 := by
  show ((3 : ℕ) : ℚ) + |((2 : ℕ) : ℚ) / ((4 : ℕ) : ℚ) - target_ratio| = 3914 / 1000
  rw [abs_val_nonpos (show ((2 : ℕ) : ℚ) / ((4 : ℕ) : ℚ) - target_ratio = -(914 / 1000)
    by norm_num [target_ratio]) (by norm_num)]
  norm_num

lemma cost_510 : cand_cost (5, 1, 0) = 1214 / 1000 := by
  show ((0 : ℕ) : ℚ) + |((1 : ℕ) : ℚ) / ((5 : ℕ) : ℚ) - target_ratio| = 1214 / 1000
  rw [abs_val_nonpos (show ((1 : ℕ) : ℚ) / ((5 : ℕ) : ℚ) - target_ratio = -(1214 / 1000)
    by norm_num [target_ratio]) (by norm_num)]
  norm_num

lemma cost_100 : cand_cost (1, 0, 0) = 1414 / 1000 := by
  show ((0 : ℕ) : ℚ) + |((0 : ℕ) : ℚ) / ((1 : ℕ) : ℚ) - target_ratio| = 1414 / 1000
  rw [abs_val_nonpos (show ((0 : ℕ) : ℚ) / ((1 : ℕ) : ℚ) - target_ratio = -(1414 / 1000)
    by norm_num [target_ratio]) (by norm_num)]
  norm_num

lemma cost_200 : cand_cost (2, 0, 0) = 1414 / 1000 := by
  show ((0 : ℕ) : ℚ) + |((0 : ℕ) : ℚ) / ((2 : ℕ) : ℚ) - target_ratio| = 1414 / 1000
  rw [abs_val_nonpos (show ((0 : ℕ) : ℚ) / ((2 : ℕ) : ℚ) - target_ratio = -(1414 / 1000)
    by norm_num [target_ratio]) (by norm_num)]
  norm_num

lemma grid_limit_five : grid_limit 5 = 5 := by
  unfold grid_limit ceil_sqrt
  rw [sqrt_five]
  norm_num

lemma candidates_five :
    candidates 5 = [(1, 5, 0), (2, 3, 1), (3, 2, 1), (4, 2, 3), (5, 1, 0)] := by
  unfold candidates
  rw [grid_limit_five]
  decide

lemma chosen_five : chosen 5 = (2, 3, 1) := by
  unfold chosen
  rw [candidates_five]
  show first_min cand_cost (1, 5, 0) [(2, 3, 1), (3, 2, 1), (4, 2, 3), (5, 1, 0)]
    = (2, 3, 1)
  rw [first_min_cons, if_pos (show cand_cost (2, 3, 1) < cand_cost (1, 5, 0)
    by rw [cost_231, cost_150]; norm_num)]
  rw [first_min_cons, if_neg (show ¬ cand_cost (3, 2, 1) < cand_cost (2, 3, 1)
    by rw [cost_321, cost_231]; norm_num)]
  rw [first_min_cons, if_neg (show ¬ cand_cost (4, 2, 3) < cand_cost (2, 3, 1)
    by rw [cost_423, cost_231]; norm_num)]
  rw [first_min_cons, if_neg (show ¬ cand_cost (5, 1, 0) < cand_cost (2, 3, 1)
    by rw [cost_510, cost_231]; norm_num)]
  exact first_min_nil cand_cost (2, 3, 1)

lemma grid_five : calculate_grid 5 = (2, 3) := by
  unfold calculate_grid
  rw [chosen_five]

lemma grid_limit_zero : grid_limit 0 = 2 := by
  unfold grid_limit ceil_sqrt
  rw [sqrt_zero']
  norm_num

lemma candidates_zero : candidates 0 = [(1, 0, 0), (2, 0, 0)] := by
  unfold candidates
  rw [grid_limit_zero]
  decide

lemma chosen_zero : chosen 0 = (1, 0, 0) := by
  unfold chosen
  rw [candidates_zero]
  show first_min cand_cost (1, 0, 0) [(2, 0, 0)] = (1, 0, 0)
  rw [first_min_cons, if_neg (show ¬ cand_cost (2, 0, 0) < cand_cost (1, 0, 0)
    by rw [cost_200, cost_100]; norm_num)]
  exact first_min_nil cand_cost (1, 0, 0)

lemma grid_zero : calculate_grid 0 = (1, 0) := by
  unfold calculate_grid
  rw [chosen_zero]

/- ### Claim C2: grid validity -/

/-- Claim C2: for every integer `N ≥ 1`, the grid returned by
`calculate_grid` has `cols ≥ 1`, `rows ≥ 1`, and `cols * rows ≥ N`. -/
theorem grid_validity (n : ℕ) (h : 1 ≤ n) :
    1 ≤ (calculate_grid n).1 ∧ 1 ≤ (calculate_grid n).2 ∧
      n ≤ (calculate_grid n).1 * (calculate_grid n).2 := by
  obtain ⟨hmem, -⟩ := chosen_spec n
  obtain ⟨c, hc, heq⟩ := mem_candidates n (chosen n) hmem
  unfold calculate_grid
  rw [heq]
  exact ⟨hc, ceil_div_pos n c h hc, (ceil_div_spec n c hc).1⟩

/-- Witness for C2 at `N = 5`. -/
theorem grid_validity_witness :
    1 ≤ 5 ∧ (1 ≤ (calculate_grid 5).1 ∧ 1 ≤ (calculate_grid 5).2 ∧
      5 ≤ (calculate_grid 5).1 * (calculate_grid 5).2) :=
  ⟨by norm_num, grid_validity 5 (by norm_num)⟩


/- ### Claim C4: the literal waste bound fails; the cost bound holds -/

/-- Counterexample for C4 as stated: at `N = 5` the chosen grid `(2, 3)` has
waste `1`, strictly larger than the waste `0` of both the `1×N` and the `N×1`
candidate. -/
theorem grid_waste_counterexample :
    ¬ ((calculate_grid 5).1 * (calculate_grid 5).2 - 5 ≤ 1 * 5 - 5 ∧
       (calculate_grid 5).1 * (calculate_grid 5).2 - 5 ≤ 5 * 1 - 5) := by
  rw [grid_five]
  decide

/-- Claim C4 (amended): for every `N ≥ 1` the chosen candidate's cost
(waste plus aspect-ratio deviation) is never larger than the cost of the
trivial `1×N` candidate, and hence the chosen grid's waste is bounded by that
trivial cost. -/
theorem grid_not_worse_than_trivial (n : ℕ) (_h : 1 ≤ n) :
    cand_cost (chosen n) ≤ cand_cost (1, n, 0) ∧
    (((calculate_grid n).1 * (calculate_grid n).2 - n : ℕ) : ℚ)
      ≤ cand_cost (1, n, 0) := by
  obtain ⟨hmem, hmin⟩ := chosen_spec n
  have hle := hmin _ (trivial_candidate_mem n)
  refine ⟨hle, le_trans ?_ hle⟩
  have hwaste : ((chosen n).2.2 : ℚ) ≤ cand_cost (chosen n) :=
    le_add_of_nonneg_right (abs_nonneg _)
  suffices hs : (calculate_grid n).1 * (calculate_grid n).2 - n = (chosen n).2.2 by
    rw [hs]; exact hwaste
  obtain ⟨c, hc, heq⟩ := mem_candidates n (chosen n) hmem
  unfold calculate_grid
  rw [heq]
  show c * ceil_div n c - n = ceil_div n c * c - n
  rw [Nat.mul_comm]

/-- Witness for the amended C4 at `N = 5`. -/
theorem grid_not_worse_than_trivial_witness :
    1 ≤ 5 ∧ (cand_cost (chosen 5) ≤ cand_cost (1, 5, 0) ∧
      (((calculate_grid 5).1 * (calculate_grid 5).2 - 5 : ℕ) : ℚ)
        ≤ cand_cost (1, 5, 0)) :=
  ⟨by norm_num, grid_not_worse_than_trivial 5 (by norm_num)⟩

/- ### Claim C6: worked scenario N = 5 -/

/-- Claim C6: with target ratio `1.414`, `calculate_grid 5 = (2, 3)`: the
candidate `c = 2` has cost `1 + |1.5 - 1.414| = 1.086` and beats both
`c = 1, r = 5` and `c = 3, r = 2` (the selection takes the first minimal-cost
candidate in ascending `c` order, matching Python's stable sort). -/
theorem grid_for_five :
    calculate_grid 5 = (2, 3) ∧
    cand_cost (2, 3, 1) = 1086 / 1000 ∧
    cand_cost (2, 3, 1) < cand_cost (1, 5, 0) ∧
    cand_cost (2, 3, 1) < cand_cost (3, 2, 1) := by
  refine ⟨grid_five, cost_231, ?_, ?_⟩
  · rw [cost_231, cost_150]; norm_num
  · rw [cost_231, cost_321]; norm_num

/- ### SheetComposer: sheet size and the output page sequence -/

/-- Embeds the reportlab constant `mm` (one millimetre in points,
`72 / 25.4`) as an exact rational. -/
def mm : ℚ := 360 / 127

/-- reportlab `A4 = (210*mm, 297*mm)`. -/
def A4 : ℚ × ℚ := (210 * mm, 297 * mm)

/-- reportlab `portrait(pagesize)`: the pair reordered to (short, long). -/
def portrait (p : ℚ × ℚ) : ℚ × ℚ := (min p.1 p.2, max p.1 p.2)

/-- `self.sheet_width` from `Imposer.__init__`: `portrait(A4)[0]`. -/
def sheet_width : ℚ := (portrait A4).1

/-- `self.sheet_height` from `Imposer.__init__`: `portrait(A4)[1]`. -/
def sheet_height : ℚ := (portrait A4).2

lemma sheet_width_eval : sheet_width = 75600 / 127 := by
  show min (210 * mm) (297 * mm) = 75600 / 127
  rw [min_eq_left (by norm_num [mm])]
  norm_num [mm]

lemma sheet_height_eval : sheet_height = 106920 / 127 := by
  show max (210 * mm) (297 * mm) = 106920 / 127
  rw [max_eq_right (by norm_num [mm])]
  norm_num [mm]

/-- `sheets_per_stack = math.ceil(total_input_pages / (2 * n_up))` from
`Imposer.generate`. -/
def sheets_per_stack (P n : ℕ) : ℕ := ceil_div P (2 * n)

/-- One output page (sheet side) emitted by `Imposer.generate`, carrying the
blank-page dimensions it is created with. -/
structure OutputPage where
  sheetIndex : ℕ
  isFront : Bool
  width : ℚ
  height : ℚ

/-- The ordered output page sequence of `Imposer.generate`: for each sheet
index, a front side then a back side, each a blank page of the sheet size. -/
def generate_pages (P n : ℕ) : List OutputPage :=
  (List.range (sheets_per_stack P n)).flatMap (fun s =>
    [⟨s, true, sheet_width, sheet_height⟩, ⟨s, false, sheet_width, sheet_height⟩])

lemma pair_flatMap_length {α : Type} (f g : ℕ → α) (k : ℕ) :
    ((List.range k).flatMap (fun t => [f t, g t])).length = 2 * k := by
  induction k with
  | zero => rfl
  | succ k ih =>
    rw [List.range_succ, List.flatMap_append, List.length_append, ih]
    simp [Nat.mul_succ]

lemma pair_flatMap_getElem {α : Type} (f g : ℕ → α) (k s : ℕ) (hs : s < k) :
    ((List.range k).flatMap (fun t => [f t, g t]))[2 * s]? = some (f s) ∧
    ((List.range k).flatMap (fun t => [f t, g t]))[2 * s + 1]? = some (g s) := by
  induction k with
  | zero => omega
  | succ k ih =>
    rw [List.range_succ, List.flatMap_append]
    have hl := pair_flatMap_length f g k
    by_cases h : s < k
    · obtain ⟨h1, h2⟩ := ih h
      constructor
      · rw [List.getElem?_append, if_pos (by rw [hl]; omega)]
        exact h1
      · rw [List.getElem?_append, if_pos (by rw [hl]; omega)]
        exact h2
    · have hsk : s = k := by omega
      subst hsk
      constructor
      · rw [List.getElem?_append_right hl.le, hl]
        simp
      · rw [List.getElem?_append_right (hl.le.trans (by omega)), hl]
        simp

/- ### Claim C5: sheet count, output order, empty input -/

/-- Claim C5: for every `P ≥ 0` and `N ≥ 1`, `Imposer.generate` emits exactly
`2 * ceil(P / (2N))` output pages, ordered sheet 0 front, sheet 0 back,
sheet 1 front, sheet 1 back, …; `P = 0` yields zero output pages and is not
an error. -/
theorem sheet_count_and_order (P n : ℕ) (h : 1 ≤ n) :
    (generate_pages P n).length = 2 * sheets_per_stack P n ∧
    sheets_per_stack P n = ⌈(P : ℚ) / (2 * (n : ℚ))⌉₊ ∧
    (∀ s, s < sheets_per_stack P n →
      (generate_pages P n)[2 * s]? = some ⟨s, true, sheet_width, sheet_height⟩ ∧
      (generate_pages P n)[2 * s + 1]?
        = some ⟨s, false, sheet_width, sheet_height⟩) ∧
    (P = 0 → generate_pages P n = []) := by
  refine ⟨?_, ?_, ?_, ?_⟩
  · exact pair_flatMap_length _ _ _
  · unfold sheets_per_stack
    rw [ceil_div_eq_ceil P (2 * n) (by omega)]
    norm_cast
  · intro s hs
    exact pair_flatMap_getElem _ _ _ s hs
  · intro hP
    subst hP
    unfold generate_pages sheets_per_stack
    rw [show ceil_div 0 (2 * n) = 0 from by
      rw [ceil_div]; exact Nat.div_eq_of_lt (by omega)]
    rfl

/-- Witness for C5 at `P = 5`, `N = 2`. -/
theorem sheet_count_and_order_witness :
    1 ≤ 2 ∧
    ((generate_pages 5 2).length = 2 * sheets_per_stack 5 2 ∧
      sheets_per_stack 5 2 = ⌈(5 : ℚ) / (2 * (2 : ℚ))⌉₊ ∧
      (∀ s, s < sheets_per_stack 5 2 →
        (generate_pages 5 2)[2 * s]? = some ⟨s, true, sheet_width, sheet_height⟩ ∧
        (generate_pages 5 2)[2 * s + 1]?
          = some ⟨s, false, sheet_width, sheet_height⟩) ∧
      (5 = 0 → generate_pages 5 2 = [])) := by
  constructor
  · norm_num
  · have h := sheet_count_and_order 5 2 (by norm_num)
    refine ⟨h.1, ?_, h.2.2.1, h.2.2.2⟩
    have h2 := h.2.1
    norm_num at h2 ⊢
    exact h2

/- ### Claim C10: fixed A4 portrait output sheet size -/

/-- Claim C10: every output page produced by `Imposer.generate` has the fixed
A4-portrait dimensions (`595.27… × 841.88…` points, exactly
`75600/127 × 106920/127`), for every input page count and density. -/
theorem output_sheet_size_fixed (P n : ℕ) (pg : OutputPage)
    (hpg : pg ∈ generate_pages P n) :
    pg.width = 75600 / 127 ∧ pg.height = 106920 / 127 := by
  unfold generate_pages at hpg
  rw [List.mem_flatMap] at hpg
  obtain ⟨s, -, hmem⟩ := hpg
  simp only [List.mem_cons, List.not_mem_nil, or_false] at hmem
  rcases hmem with rfl | rfl
  · exact ⟨sheet_width_eval, sheet_height_eval⟩
  · exact ⟨sheet_width_eval, sheet_height_eval⟩

/-- Witness for C10: the first output page of the job `P = 1`, `N = 1`. -/
theorem output_sheet_size_fixed_witness :
    (OutputPage.mk 0 true sheet_width sheet_height) ∈ generate_pages 1 1 ∧
    ((OutputPage.mk 0 true sheet_width sheet_height).width = 75600 / 127 ∧
      (OutputPage.mk 0 true sheet_width sheet_height).height = 106920 / 127) := by
  have hmem : (OutputPage.mk 0 true sheet_width sheet_height)
      ∈ generate_pages 1 1 := by
    have he : generate_pages 1 1
        = [⟨0, true, sheet_width, sheet_height⟩,
           ⟨0, false, sheet_width, sheet_height⟩] := rfl
    rw [he]
    exact List.mem_cons_self _ _
  exact ⟨hmem, output_sheet_size_fixed 1 1 _ hmem⟩

/- ### page-to-cell mapping of `_fill_sheet_side` / `_draw_overlay` -/

/-- The 1-based source page number selected for grid cell `(row, col)` of
sheet `sheet_idx`, as computed in `Imposer._fill_sheet_side` (and identically
in `_draw_overlay`): `stack_index = row*cols + col`,
`global_pair_index = sheet_idx*n + stack_index`, front pages are
`global_pair_index*2 + 1` and back pages `global_pair_index*2 + 2`. -/
def page_at (n sheet_idx : ℕ) (is_front : Bool) (row col cols : ℕ) : ℕ :=
  let stack_index := row * cols + col
  let global_pair_index := sheet_idx * n + stack_index
  if is_front then global_pair_index * 2 + 1 else global_pair_index * 2 + 2

/-- The row-major cell enumeration of the nested `for row / for col` loops. -/
def cells (rows cols : ℕ) : List (ℕ × ℕ) :=
  (List.range rows).flatMap (fun row =>
    (List.range cols).map (fun col => (row, col)))

/-- One page actually placed by `Imposer._fill_sheet_side`: its sheet index,
side, logical cell, and the 1-based source page number merged there. -/
structure Placement where
  sheet : ℕ
  front : Bool
  row : ℕ
  col : ℕ
  page : ℕ
deriving DecidableEq

/-- All placements performed by `Imposer.generate` for a given input page
count, density and grid: for each sheet, front side then back side; within a
side the row-major cells whose computed page number does not exceed `P`. -/
def placed_list_grid (P n cols rows : ℕ) : List Placement :=
  (List.range (sheets_per_stack P n)).flatMap (fun s =>
    [true, false].flatMap (fun f =>
      ((cells rows cols).filter
        (fun rc => decide (page_at n s f rc.1 rc.2 cols ≤ P))).map
        (fun rc => ⟨s, f, rc.1, rc.2, page_at n s f rc.1 rc.2 cols⟩)))

/-- All placements of a job, with the grid coming from `calculate_grid` as in
`Imposer.__init__`. -/
def placed_list (P n : ℕ) : List Placement :=
  placed_list_grid P n (calculate_grid n).1 (calculate_grid n).2

/- ### Claim C1: the mapping places some pages twice -/

/-- Claim C1 (refuted — code bug): with `P = 12` input pages and density
`N = 5` (grid `2×3`, capacity 6 > 5), the fill loops run `stack_index` over
all `rows*cols = 6` cells instead of the documented `0..N-1`, so source page
11 is placed at two distinct (sheet, side, cell) triples: sheet 0 front cell
`(2,1)` and sheet 1 front cell `(0,0)`. The code's own comment says
"stack index k (0 to N-1)". -/
theorem page_placed_twice :
    ((placed_list 12 5).filter (fun q => q.page == 11)).length = 2 ∧
    Placement.mk 0 true 2 1 11 ∈ placed_list 12 5 ∧
    Placement.mk 1 true 0 0 11 ∈ placed_list 12 5 := by
  have h : placed_list 12 5 = placed_list_grid 12 5 2 3 := by
    unfold placed_list
    rw [grid_five]
  rw [h]
  refine ⟨?_, ?_, ?_⟩ <;> decide

/- ### Claim C7: back-side horizontal mirroring -/

/-- The target (physical) column computed in `Imposer._fill_sheet_side` and
`Imposer._draw_overlay`: the unmirrored `col` on the front side,
`cols - 1 - col` on the back side. -/
def target_col (cols col : ℕ) (is_front : Bool) : ℕ :=
  if is_front then col else cols - 1 - col

/-- Absolute origin of the cell receiving content, from
`Imposer._fill_sheet_side`: `x = target_col * cell_width`,
`y = sheet_height - (row + 1) * cell_height` (row unmirrored). -/
def content_cell_origin (cw ch : ℚ) (cols row col : ℕ) (is_front : Bool) :
    ℚ × ℚ :=
  ((target_col cols col is_front : ℚ) * cw,
    sheet_height - ((row : ℚ) + 1) * ch)

/-- Position of the page-number stamp, from `Imposer._draw_overlay`:
`x = target_col * cell_width + 10`, `y = sheet_height - row * cell_height - 14`
(mirrored target column, unmirrored row). -/
def stamp_pos (cw ch : ℚ) (cols row col : ℕ) (is_front : Bool) : ℚ × ℚ :=
  ((target_col cols col is_front : ℚ) * cw + 10,
    (sheet_height - (row : ℚ) * ch) - 14)

/-- Claim C7: on a back side both the placed content and its page-number
stamp go to target column `cols - 1 - col` with the row unchanged, while the
source page selected there is still computed from the unmirrored `col`
(`stack_index = row*cols + col`); on front sides the target column is `col`.
The stamp's horizontal position follows the physical (mirrored) placement on
both sides. -/
theorem back_side_mirroring (n s cols row col : ℕ) (cw ch : ℚ) :
    target_col cols col false = cols - 1 - col ∧
    target_col cols col true = col ∧
    page_at n s false row col cols = (s * n + (row * cols + col)) * 2 + 2 ∧
    page_at n s true row col cols = (s * n + (row * cols + col)) * 2 + 1 ∧
    content_cell_origin cw ch cols row col false
      = (((cols - 1 - col : ℕ) : ℚ) * cw, sheet_height - ((row : ℚ) + 1) * ch) ∧
    stamp_pos cw ch cols row col false
      = (((cols - 1 - col : ℕ) : ℚ) * cw + 10,
          (sheet_height - (row : ℚ) * ch) - 14) ∧
    (stamp_pos cw ch cols row col false).1
      = (content_cell_origin cw ch cols row col false).1 + 10 ∧
    (stamp_pos cw ch cols row col true).1
      = (content_cell_origin cw ch cols row col true).1 + 10 :=
  ⟨rfl, rfl, rfl, rfl, rfl, rfl, rfl, rfl⟩

/- ### Claim C8: placement transform and containment -/

/-- `padding_factor = 1.0` from `Imposer._fill_sheet_side`. -/
def padding_factor : ℚ := 1

/-- The uniform scale of `Imposer._fill_sheet_side`:
`min(avail_w / src_w, avail_h / src_h)` with `avail = cell * padding_factor`. -/
def page_scale (cw ch sw sh : ℚ) : ℚ :=
  min ((cw * padding_factor) / sw) ((ch * padding_factor) / sh)

/-- `off_x_in_cell = (cell_width - scaled_src_w) / 2`. -/
def page_off_x (cw ch sw sh : ℚ) : ℚ :=
  (cw - sw * page_scale cw ch sw sh) / 2

/-- `off_y_in_cell = (cell_height - scaled_src_h) / 2`. -/
def page_off_y (cw ch sw sh : ℚ) : ℚ :=
  (ch - sh * page_scale cw ch sw sh) / 2

/-- Claim C8: the applied scale is `min(cellWidth/srcW, cellHeight/srcH)`,
content is centered via offsets `(cellWidth - srcW*scale)/2` and
`(cellHeight - srcH*scale)/2`, and consequently `scale*srcW ≤ cellWidth` and
`scale*srcH ≤ cellHeight` — full containment, no cropping. -/
theorem placement_containment (cw ch sw sh : ℚ)
    (_hcw : 0 < cw) (_hch : 0 < ch) (hsw : 0 < sw) (hsh : 0 < sh) :
    page_scale cw ch sw sh = min (cw / sw) (ch / sh) ∧
    page_off_x cw ch sw sh = (cw - sw * page_scale cw ch sw sh) / 2 ∧
    page_off_y cw ch sw sh = (ch - sh * page_scale cw ch sw sh) / 2 ∧
    page_scale cw ch sw sh * sw ≤ cw ∧
    page_scale cw ch sw sh * sh ≤ ch := by
  have hps : page_scale cw ch sw sh = min (cw / sw) (ch / sh) := by
    unfold page_scale padding_factor
    rw [mul_one, mul_one]
  refine ⟨hps, rfl, rfl, ?_, ?_⟩
  · rw [hps]
    calc min (cw / sw) (ch / sh) * sw
        ≤ (cw / sw) * sw :=
          mul_le_mul_of_nonneg_right (min_le_left _ _) hsw.le
      _ = cw := div_mul_cancel₀ cw (ne_of_gt hsw)
  · rw [hps]
    calc min (cw / sw) (ch / sh) * sh
        ≤ (ch / sh) * sh :=
          mul_le_mul_of_nonneg_right (min_le_right _ _) hsh.le
      _ = ch := div_mul_cancel₀ ch (ne_of_gt hsh)

/-- Witness for C8 with cell `100 × 50` and source page `10 × 20`. -/
theorem placement_containment_witness :
    (0 : ℚ) < 100 ∧ (0 : ℚ) < 50 ∧ (0 : ℚ) < 10 ∧ (0 : ℚ) < 20 ∧
    (page_scale 100 50 10 20 = min ((100 : ℚ) / 10) ((50 : ℚ) / 20) ∧
      page_off_x 100 50 10 20 = (100 - 10 * page_scale 100 50 10 20) / 2 ∧
      page_off_y 100 50 10 20 = (50 - 20 * page_scale 100 50 10 20) / 2 ∧
      page_scale 100 50 10 20 * 10 ≤ 100 ∧
      page_scale 100 50 10 20 * 20 ≤ 50) :=
  ⟨by norm_num, by norm_num, by norm_num, by norm_num,
    placement_containment 100 50 10 20
      (by norm_num) (by norm_num) (by norm_num) (by norm_num)⟩

/- ### request handling layer (`src/app.py`) -/

/-- `MAX_FILE_SIZE = 60 * 1024 * 1024` from `app.py`. -/
def MAX_FILE_SIZE : ℕ := 60 * 1024 * 1024

/-- The density parse of the `/process` handler:
`int(request.form.get('n_up', 2))` with `ValueError` mapped to `2`.
`none` models an absent form field, `some none` a value that does not parse
as an integer, `some (some v)` a value parsing to `v`. -/
def parse_n_up (field : Option (Option ℤ)) : ℤ :=
  match field with
  | none => 2
  | some none => 2
  | some (some v) => v

/-- The parts of an incoming `/process` request that the handler inspects. -/
structure Request where
  has_file : Bool
  filename_nonempty : Bool
  content_length : Option ℕ
  file_size : ℕ
  n_up_field : Option (Option ℤ)

/-- Outcome of the `/process` handler before any rendering happens:
an HTTP-style rejection, or the invocation of `Imposer` with a density. -/
inductive ProcessResult where
  | noFile
  | emptyFilename
  | tooLarge
  | serverFull
  | invoked (n : ℤ)
deriving DecidableEq

/-- The `request.content_length and request.content_length > MAX_FILE_SIZE`
check (a missing header is falsy and skips the check). -/
def content_length_exceeds (cl : Option ℕ) : Bool :=
  match cl with
  | none => false
  | some v => decide (MAX_FILE_SIZE < v)

/-- The `/process` handler of `app.py`, up to the point where
`Imposer(file.stream, n_up)` is constructed: file-presence checks, density
parse, content-length check, queue admission, actual-size check, then the
composer invocation. -/
def process (req : Request) (queue_full : Bool) : ProcessResult :=
  if !req.has_file then ProcessResult.noFile
  else if !req.filename_nonempty then ProcessResult.emptyFilename
  else
    let n_up := parse_n_up req.n_up_field
    if content_length_exceeds req.content_length then ProcessResult.tooLarge
    else if queue_full then ProcessResult.serverFull
    else if MAX_FILE_SIZE < req.file_size then ProcessResult.tooLarge
    else ProcessResult.invoked n_up

/- ### Claim C3: densities below 1 are not rejected -/

/-- Claim C3 (refuted — code bug): a request carrying `n_up = 0 < 1` passes
every check of the `/process` handler, so the composer IS invoked with
density 0, and the grid computation executes on it, returning the degenerate
grid `(1, 0)` (after which `generate` would divide by zero); nothing rejects
`N < 1` before the layout computation runs. -/
theorem invalid_density_not_rejected :
    process ⟨true, true, some 1000, 1000, some (some 0)⟩ false
      = ProcessResult.invoked 0 ∧
    (0 : ℤ) < 1 ∧
    calculate_grid 0 = (1, 0) :=
  ⟨rfl, by norm_num, grid_zero⟩

/- ### Claim C9: malformed density silently becomes 2 -/

/-- Claim C9: if the `n_up` form field is missing or does not parse as an
integer, the `/process` endpoint substitutes density 2 and behaves exactly as
if `n_up = 2` had been sent; a malformed density alone never causes a
rejection, and when every other check passes the composer is invoked with
density 2. -/
theorem malformed_density_defaults (hf fn : Bool) (cl : Option ℕ) (fs : ℕ)
    (fld : Option (Option ℤ)) (qf : Bool)
    (h : fld = none ∨ fld = some none) :
    parse_n_up fld = 2 ∧
    process ⟨hf, fn, cl, fs, fld⟩ qf = process ⟨hf, fn, cl, fs, some (some 2)⟩ qf ∧
    (hf = true → fn = true → content_length_exceeds cl = false → qf = false →
      fs ≤ MAX_FILE_SIZE →
      process ⟨hf, fn, cl, fs, fld⟩ qf = ProcessResult.invoked 2) := by
  have hp : parse_n_up fld = 2 := by
    rcases h with rfl | rfl <;> rfl
  refine ⟨hp, ?_, ?_⟩
  · rcases h with rfl | rfl <;> rfl
  · intro h1 h2 h3 h4 h5
    subst h1; subst h2; subst h4
    simp only [process, hp, h3, Bool.not_true, Bool.false_eq_true, if_false,
      ite_false]
    rw [if_neg (Nat.not_lt.mpr h5)]

/-- Witness for C9: a well-formed request whose `n_up` field is absent. -/
theorem malformed_density_defaults_witness :
    ((none : Option (Option ℤ)) = none ∨
      (none : Option (Option ℤ)) = some none) ∧
    (parse_n_up none = 2 ∧
      process ⟨true, true, none, 100, none⟩ false
        = process ⟨true, true, none, 100, some (some 2)⟩ false ∧
      (true = true → true = true → content_length_exceeds none = false →
        false = false → 100 ≤ MAX_FILE_SIZE →
        process ⟨true, true, none, 100, none⟩ false
          = ProcessResult.invoked 2)) :=
  ⟨Or.inl rfl,
    malformed_density_defaults true true none 100 none false (Or.inl rfl)⟩

end CutStack
